import Mathlib

/-!
Verification of the nix-auth provider core: a shallow embedding of the
provider abstraction, detection engine, device-flow poll loop and the
personal-access-token flow, with theorems settling the specification
claims against the code.
-/

namespace NixAuth

/-- Modelled from the spec: the fallback `UnknownProvider` of section 4.6,
whose file is absent from src/ (its semantics are corroborated by the
status tests of src/unnamed/part_003). -/
structure UnknownProvider where
  host : String
deriving DecidableEq, Repr

/-- Modelled from the spec: the Unknown provider constructor, binding the
requested host. -/
def NewUnknownProvider (host : String) : UnknownProvider := ⟨host⟩

/-- Modelled from the spec: the Unknown provider is named "unknown". -/
def UnknownProvider.Name (_ : UnknownProvider) : String := "unknown"

/-- Fixed priority ordering used by `ListForDetection`
(src/unnamed/part_007). -/
def preferredOrder : List String := ["github", "gitlab", "gitea", "forgejo"]

/-- Embeds `ListForDetection` (src/unnamed/part_007): the registry is
represented by the list of its registered names in iteration order. The
first loop appends each preferred name that is registered, in the fixed
priority order; the second loop appends every remaining registered name
that is not in the preferred list, skipping the name "codeberg" (an alias
sharing its detector with another entry). -/
def ListForDetection (registryNames : List String) : List String :=
  let result := preferredOrder.foldl
    (fun acc name => if registryNames.contains name then acc ++ [name] else acc) []
  registryNames.foldl
    (fun acc name =>
      let found := preferredOrder.contains name
      if !found && name ≠ "codeberg" then acc ++ [name] else acc) result

/-- Provider instance as seen through the `Provider` contract relevant to
detection: a name bound to a host, with the client ID the instance was
constructed with. -/
structure ProviderInst where
  name : String
  host : String
  clientID : String
deriving DecidableEq, Repr

/-- The Unknown provider bound to a host, as produced by the detection
engine fallback (`NewUnknownProvider(host)`). -/
def unknownInst (host : String) : ProviderInst :=
  { name := "unknown", host := host, clientID := "" }

/-- Reply of one registered detector for the probed host: a provider
instance claiming the host, a clean "no match", or a network-level error. -/
inductive DetectorReply where
  | matched (p : ProviderInst)
  | noMatch
  | netError (msg : String)
deriving DecidableEq, Repr

/-- Modelled from the spec: the detection engine `Detect(ctx, host,
clientID)` is code of this repository that is absent from src/ — only its
callers (cmd/status.go, cmd/set_token.go, the login command) and its tests
reference it. Following section 4.2 of the specification, the candidates of
`listForDetection()` are iterated in order; an entry with no detector is
skipped; a detector returning a network error abandons detection and
yields the Unknown provider bound to the host; a detector returning a
provider is the match, reconstructed with the explicit client ID via
`getWithConfig` when one was supplied by the caller; a clean "no match"
moves on to the next candidate; and when no candidate matches, the Unknown
provider bound to the host is returned. The candidate list is represented
by the detector slot of each registration (`none` for a registration without a
detector) paired with the reply its detector gives for this host. -/
def Detect (host clientID : String) :
    List (Option DetectorReply) → Except String ProviderInst
  | [] => .ok (unknownInst host)
  | none :: rest => Detect host clientID rest
  | some (.netError _) :: _ => .ok (unknownInst host)
  | some (.matched p) :: _ =>
    if clientID ≠ "" then
      .ok { name := p.name, host := host, clientID := clientID }
    else .ok p
  | some .noMatch :: rest => Detect host clientID rest

/-- Appending-accumulator folds compute a filter: helper for the two loops
of `ListForDetection`. -/
theorem foldl_append_filter (p : String → Bool) :
    ∀ (l : List String) (init : List String),
      l.foldl (fun acc x => if p x then acc ++ [x] else acc) init =
        init ++ l.filter p := by
  intro l
  induction l with
  | nil => intro init; simp
  | cons x xs ih =>
    intro init
    by_cases h : p x
    · simp [List.foldl_cons, h, ih, List.filter_cons]
    · simp [List.foldl_cons, h, ih, List.filter_cons]

/-- C8: for every registry contents (represented by the list of registered
names in iteration order), `ListForDetection` lists the preferred names
github, gitlab, gitea, forgejo first, in exactly that order, each included
only if registered, followed by every other registered name except
"codeberg", and "codeberg" never appears in the result. -/
theorem list_for_detection_ordering :
    ∀ (registryNames : List String),
      ListForDetection registryNames =
        preferredOrder.filter (fun n => registryNames.contains n) ++
          registryNames.filter
            (fun n => !preferredOrder.contains n && n ≠ "codeberg") ∧
      "codeberg" ∉ ListForDetection registryNames := by
  intro names
  have hmain : ListForDetection names =
      preferredOrder.filter (fun n => names.contains n) ++
        names.filter (fun n => !preferredOrder.contains n && n ≠ "codeberg") := by
    show names.foldl _ (preferredOrder.foldl _ []) = _
    rw [foldl_append_filter (fun n => names.contains n) preferredOrder []]
    rw [foldl_append_filter
      (fun n => !preferredOrder.contains n && decide (n ≠ "codeberg")) names]
    simp
  refine ⟨hmain, ?_⟩
  rw [hmain]
  intro hmem
  rcases List.mem_append.mp hmem with hpre | hrest
  · have := (List.mem_filter.mp hpre).1
    simp [preferredOrder] at this
  · have := (List.mem_filter.mp hrest).2
    simp at this

/-- Detection always produces a provider: helper for the modelled `Detect`
engine. -/
theorem detect_always_ok (host clientID : String) :
    ∀ (ds : List (Option DetectorReply)), ∃ p, Detect host clientID ds = .ok p := by
  intro ds
  induction ds with
  | nil => exact ⟨unknownInst host, rfl⟩
  | cons d rest ih =>
    cases d with
    | none => exact ih
    | some reply =>
      cases reply with
      | matched p =>
        by_cases h : clientID ≠ ""
        · exact ⟨{ name := p.name, host := host, clientID := clientID },
            by simp [Detect, h]⟩
        · exact ⟨p, by simp [Detect, h]⟩
      | noMatch => exact ih
      | netError msg => exact ⟨unknownInst host, rfl⟩

/-- Detectorless registrations and clean non-matches are skipped: helper
for the modelled `Detect` engine. -/
theorem detect_skips_nonmatches (host clientID : String) :
    ∀ (pre tail : List (Option DetectorReply)),
      (∀ d ∈ pre, d = none ∨ d = some .noMatch) →
      Detect host clientID (pre ++ tail) = Detect host clientID tail := by
  intro pre
  induction pre with
  | nil => intro tail _; rfl
  | cons d rest ih =>
    intro tail hall
    rcases hall d (List.mem_cons_self d rest) with h | h
    · subst h
      exact ih tail (fun x hx => hall x (List.mem_cons_of_mem _ hx))
    · subst h
      exact ih tail (fun x hx => hall x (List.mem_cons_of_mem _ hx))

/-- C1: the modelled detection engine never returns an error; when the
first detector to answer something other than a clean "no match" raises a
network error, detection stops and yields the Unknown provider bound to the
requested host regardless of the remaining candidates; and when every
candidate is detectorless or answers "no match", it likewise yields the
Unknown provider bound to that host. -/
theorem detect_never_errors :
    ∀ (host clientID : String) (ds pre rest : List (Option DetectorReply)) (msg : String),
      (∃ p, Detect host clientID ds = .ok p) ∧
      ((∀ d ∈ pre, d = none ∨ d = some .noMatch) →
        Detect host clientID (pre ++ some (.netError msg) :: rest) =
          .ok (unknownInst host)) ∧
      ((∀ d ∈ ds, d = none ∨ d = some .noMatch) →
        Detect host clientID ds = .ok (unknownInst host)) ∧
      (unknownInst host).name = "unknown" ∧ (unknownInst host).host = host := by
  intro host clientID ds pre rest msg
  refine ⟨detect_always_ok host clientID ds, ?_, ?_, rfl, rfl⟩
  · intro hall
    rw [detect_skips_nonmatches host clientID pre _ hall]
    rfl
  · intro hall
    have h := detect_skips_nonmatches host clientID ds [] hall
    rw [List.append_nil] at h
    rw [h]
    rfl

/-- Witness for C1: a concrete candidate list whose third detector raises a
network error after a detectorless entry and a clean non-match; the match
that a later candidate would have produced is never reached. -/
theorem detect_never_errors_witness :
    Detect "git.example.com" "" ([none, some .noMatch] ++
        some (.netError "dns failure") ::
          [some (.matched ⟨"github", "git.example.com", ""⟩)]) =
      .ok (unknownInst "git.example.com") := by
  exact (detect_never_errors "git.example.com" "" [] [none, some .noMatch]
    [some (.matched ⟨"github", "git.example.com", ""⟩)] "dns failure").2.1 (by decide)

end NixAuth
